import Mathlib

/-
Verification of the analysis-workflow orchestrator of
`graph_analytics_orchestrator` (gae_orchestrator.py, gae_connection.py,
constants.py).

The embedding models the orchestration core: the `AnalysisStatus` state
machine, `AnalysisConfig` / `AnalysisResult` records (restricted to the
fields the verified properties mention), the retry loop of
`GAEOrchestrator.run_analysis`, the cleanup paths (`_cleanup_engine` and
the retry-time / final cleanup blocks), the failure classifier
`_is_retryable_error`, the cost table `ENGINE_COSTS`, and one poll step of
both job pollers (`GAEOrchestrator._wait_for_job` and
`GenAIGAEConnection.wait_for_job`).

External calls (deploy_engine, the job waits inside load/run/store,
delete_engine) are modeled by an environment `Nat → AttemptEnv` giving the
outcome of each retry-loop iteration's calls; a raised Python exception is
an `Except.error` carrying the exception text.  Python-truthiness details
that the source relies on are modeled explicitly (`truthy`,
non-empty-list checks); an engine identifier is `Option String` with
`none` standing for a falsy (absent) identifier.
-/

namespace GAO

/-- States of the workflow state machine (class `AnalysisStatus`). -/
inductive AnalysisStatus
  | pending
  | engineDeploying
  | graphLoading
  | algorithmRunning
  | storingResults
  | completed
  | failed
  | cleaningUp
deriving DecidableEq, Repr

/-- The fields of `AnalysisConfig` that the orchestration core reads.
`database`, `description`, `vertex_attributes`, `algorithm_params`,
`result_field`, `target_collection`, `engine_type` and
`timeout_seconds` only flow into external calls and are not modeled. -/
structure AnalysisConfig where
  name : String := ""
  vertexCollections : List String := []
  edgeCollections : List String := []
  algorithm : String := "pagerank"
  engineSize : String := "e16"
  autoCleanup : Bool := true
  retryOnFailure : Bool := true
  maxRetries : Nat := 3
deriving DecidableEq, Repr

/-- The fields of `AnalysisResult` that the orchestration core mutates and
the verified properties mention.  Timestamps are represented by the
recorded `duration_seconds` value; identifiers of graph/job and the
best-effort counters are not modeled. -/
structure AnalysisResult where
  status : AnalysisStatus
  engineId : Option String := none
  durationSeconds : Option Rat := none
  engineRuntimeMinutes : Option Rat := none
  estimatedCostUsd : Option Rat := none
  errorMessage : Option String := none
  retryCount : Nat := 0
deriving DecidableEq, Repr

/-- `GAEOrchestrator.ENGINE_COSTS` (hourly USD rates 0.20, 0.30, 0.40,
0.80, 1.60, 3.20 as exact rationals). -/
def ENGINE_COSTS : List (String × Rat) :=
  [("e4", mkRat 20 100), ("e8", mkRat 30 100), ("e16", mkRat 40 100),
   ("e32", mkRat 80 100), ("e64", mkRat 160 100), ("e128", mkRat 320 100)]

/-- Dictionary lookup `ENGINE_COSTS.get(size)` (without default). -/
def engineCost (size : String) : Option Rat :=
  (ENGINE_COSTS.find? (fun p => p.1 == size)).map (fun p => p.2)

/-- `GAEOrchestrator.NON_RETRYABLE_ERRORS`. -/
def NON_RETRYABLE_ERRORS : List String :=
  ["ARANGO_GRAPH_TOKEN not set",
   "ARANGO_ENDPOINT not set",
   "ARANGO_DATABASE not set",
   "Missing required environment",
   "Configuration error",
   "Invalid configuration",
   "maximum recursion depth"]

/-- Does `hay` start with `needle` (character-wise)? -/
def startsWithList : List Char → List Char → Bool
  | _, [] => true
  | [], _ :: _ => false
  | a :: as, b :: bs => a == b && startsWithList as bs

/-- Python's `needle in hay` substring test on character lists. -/
def containsSubList : List Char → List Char → Bool
  | [], needle => needle.isEmpty
  | h :: t, needle => startsWithList (h :: t) needle || containsSubList t needle

/-- Python's `needle in hay` on strings. -/
def pyInStr (needle hay : String) : Bool :=
  containsSubList hay.data needle.data

/-- Python's `str.lower()` (ASCII-faithful). -/
def lowerStr (s : String) : String :=
  ⟨s.data.map Char.toLower⟩

/-- `GAEOrchestrator._is_retryable_error`: lowercase the message and return
`False` as soon as some lowered denylist pattern is a substring, else
`True`. -/
def isRetryableError (msg : String) : Bool :=
  NON_RETRYABLE_ERRORS.all (fun p => !(pyInStr (lowerStr p) (lowerStr msg)))

/-- The message of the `ValueError` raised by
`GAEConnectionBase.load_graph` when neither a graph name nor both
collection lists are supplied. -/
def loadGraphValidationError : String :=
  "Must specify either graph_name or both vertex_collections and edge_collections"

/-- The guard of that `ValueError`:
`not graph_name and not (vertex_collections and edge_collections)` with
Python truthiness (a `None`/empty graph name is `none`, an empty list is
falsy). -/
def loadGraphRejects (graphName : Option String) (vcs ecs : List String) : Bool :=
  graphName.isNone && (vcs.isEmpty || ecs.isEmpty)

example : isRetryableError "Invalid configuration: missing API key" = false := by decide
example : isRetryableError "Transient connection error" = true := by decide
example : isRetryableError "ARANGO_graph_token NOT SET" = false := by decide
example : isRetryableError loadGraphValidationError = true := by decide
example : engineCost "e16" = some (mkRat 2 5) := by decide
example : engineCost "custom" = none := by decide

/-
Job records and the two job pollers.

A polled job is a JSON-style key/value record.  The modeled value kinds
are strings, integers and booleans; the pollers only ever compare values
to string literals, test Python truthiness, or compare the numeric
`progress`/`total` pair.  (A non-numeric `progress`/`total` value would
raise a `TypeError` at the `>=` comparison in the source; such records
are outside the embedding, and every theorem below that touches the
progress shape hypothesizes numeric values.)
-/

/-- A JSON-style scalar value inside a job record. -/
inductive JVal
  | str (s : String)
  | num (n : Int)
  | bool (b : Bool)
deriving DecidableEq, Repr

/-- A job record: an association list (first binding wins, like a dict). -/
def Job := List (String × JVal)

/-- Dictionary lookup `job.get(k)` / `k in job`. -/
def Job.get? (j : Job) (k : String) : Option JVal :=
  (List.find? (fun p => p.1 == k) j).map (fun p => p.2)

/-- Numeric read with default: `job.get(k, d)` restricted to numbers. -/
def Job.getNumD (j : Job) (k : String) (d : Int) : Int :=
  match j.get? k with
  | some (JVal.num n) => n
  | _ => d

/-- Python truthiness of a scalar value. -/
def truthy : JVal → Bool
  | JVal.str s => !(s == "")
  | JVal.num n => !(n == 0)
  | JVal.bool b => b

/-- Python `v == lit` for a string literal `lit` (false on non-strings). -/
def jvalIsStr (v : JVal) (lit : String) : Bool :=
  match v with
  | JVal.str t => t == lit
  | _ => false

/-- Python `state in l` for a list `l` of string literals. -/
def stateMatches (v : JVal) (l : List String) : Bool :=
  l.any (fun s => jvalIsStr v s)

/-- `constants.COMPLETED_STATES`. -/
def COMPLETED_STATES : List String := ["done", "finished", "completed", "succeeded"]

/-- `constants.FAILED_STATES`. -/
def FAILED_STATES : List String := ["failed", "error"]

/-- Outcome of inspecting one polled job record: return the job
(success), raise a `RuntimeError` carrying an error payload (failure), or
fall through to the sleep and poll again (running). -/
inductive PollOutcome
  | success
  | failure (msg : JVal)
  | running
deriving DecidableEq, Repr

/-- One iteration of the polling loop of `GAEOrchestrator._wait_for_job`
(the branch structure on the fetched record; the surrounding timeout
check and sleep are the `running` outcome). -/
def pollStep (job : Job) : PollOutcome :=
  if (job.get? "progress").isSome && (job.get? "total").isSome then
    let progress := job.getNumD "progress" 0
    let total := job.getNumD "total" 1
    let hasError := match job.get? "error" with
      | some v => truthy v
      | none => false
    if hasError then
      PollOutcome.failure ((job.get? "error_message").getD (JVal.str "Unknown error"))
    else if total ≤ progress ∧ 0 < total then
      PollOutcome.success
    else
      PollOutcome.running
  else if (job.get? "status").isSome then
    let status := (job.get? "status").getD (JVal.str "")
    if jvalIsStr status "succeeded" then
      PollOutcome.success
    else if jvalIsStr status "failed" then
      PollOutcome.failure ((job.get? "error").getD (JVal.str "Unknown error"))
    else
      PollOutcome.running
  else if (job.get? "state").isSome then
    let state := (job.get? "state").getD (JVal.str "")
    if stateMatches state ["done", "finished", "completed"] then
      PollOutcome.success
    else if stateMatches state FAILED_STATES then
      PollOutcome.failure ((job.get? "error").getD (JVal.str "Unknown error"))
    else
      PollOutcome.running
  else
    PollOutcome.running

/-- Feed a finite sequence of fetched records to the orchestrator's
poller: the index of the first record whose inspection returns or raises,
with its outcome (`none` when every record leaves the loop polling). -/
def pollTrace : List Job → Option (Nat × PollOutcome)
  | [] => none
  | j :: rest =>
    match pollStep j with
    | PollOutcome.running => (pollTrace rest).map (fun p => (p.1 + 1, p.2))
    | o => some (0, o)

/-- The `state` value used by `GenAIGAEConnection.wait_for_job`:
`job.get('status', {}).get('state', job.get('state', 'unknown'))`.  When
the record has a `status` field the source reads a sub-field of a nested
dictionary; nested records are outside this embedding (`none`).  The
state-shape records of the verified claims carry no `status` field. -/
def genaiStateOf (job : Job) : Option JVal :=
  match job.get? "status" with
  | some _ => none
  | none => some ((job.get? "state").getD (JVal.str "unknown"))

/-- One iteration of the polling loop of `GenAIGAEConnection.wait_for_job`
(after its timeout check).  The progress branch is not exclusive: when the
pair is present but incomplete and without error, control falls through
to the state checks. -/
def genaiPollStep (job : Job) : Option PollOutcome :=
  match genaiStateOf job with
  | none => none
  | some state =>
    let progressDecided : Option PollOutcome :=
      if (job.get? "progress").isSome && (job.get? "total").isSome then
        let progress := job.getNumD "progress" 0
        let total := job.getNumD "total" 1
        let hasError := match job.get? "error" with
          | some v => truthy v
          | none => false
        if hasError then
          some (PollOutcome.failure ((job.get? "error_message").getD
            ((job.get? "errorMessage").getD (JVal.str "Unknown error"))))
        else if total ≤ progress ∧ 0 < total then
          some PollOutcome.success
        else
          none
      else
        none
    match progressDecided with
    | some o => some o
    | none =>
      if stateMatches state COMPLETED_STATES then
        some PollOutcome.success
      else if stateMatches state FAILED_STATES then
        some (PollOutcome.failure ((job.get? "error").getD (JVal.str "Unknown error")))
      else
        some PollOutcome.running

example : pollStep [("state", JVal.str "done")] = PollOutcome.success := by decide
example : pollStep [("state", JVal.str "succeeded")] = PollOutcome.running := by decide
example : genaiPollStep [("state", JVal.str "succeeded")] = some PollOutcome.success := by decide
example : pollStep [("progress", JVal.num 5), ("total", JVal.num 10)] = PollOutcome.running := by
  decide
example : pollStep [("progress", JVal.num 10), ("total", JVal.num 10)] = PollOutcome.success := by
  decide
example : pollStep [("progress", JVal.num 3), ("total", JVal.num 10),
    ("error", JVal.bool true), ("error_message", JVal.str "oom")] =
    PollOutcome.failure (JVal.str "oom") := by decide
example : pollStep [("progress", JVal.num 10), ("total", JVal.num 10),
    ("status", JVal.str "failed")] = PollOutcome.success := by decide
example : pollStep [("state", JVal.str "failed"), ("error", JVal.str "oom")] =
    PollOutcome.failure (JVal.str "oom") := by decide

/-
The retry loop of `GAEOrchestrator.run_analysis`.

One loop iteration runs, in order, `_deploy_engine`, `_load_graph`,
`_run_algorithm`, `_store_results`; any exception aborts the rest of the
iteration.  The outcomes of the external calls made by iteration `i` are
given by an environment value `env i`:
  * `deploy`: the engine identifier returned by `gae.deploy_engine`, or
    the exception text together with the truthy `gae.current_engine_id`
    captured by `_deploy_engine`'s fallback (if any);
  * `load` / `algo` / `store`: success, or the exception text raised by
    the call or by the job wait inside it (`_run_algorithm` consults the
    environment only for a recognized, implemented algorithm selector);
  * `dur`: the `duration_seconds` value recorded when the iteration ends;
  * `deleteOk`: whether `gae.delete_engine` succeeds if cleanup runs for
    this iteration's failure.
-/

/-- Outcomes of one retry-loop iteration's external calls. -/
structure AttemptEnv where
  deploy : Except (String × Option String) String
  load : Except String Unit
  algo : Except String Unit
  store : Except String Unit
  dur : Rat
  deleteOk : Bool

/-- The algorithm dispatch of `GAEOrchestrator._run_algorithm`: a
recognized, implemented selector defers to the external call; betweenness
and unknown selectors raise deterministically. -/
def runAlgorithmOutcome (cfg : AnalysisConfig) (e : AttemptEnv) : Except String Unit :=
  if cfg.algorithm == "pagerank" then e.algo
  else if cfg.algorithm == "label_propagation" then e.algo
  else if cfg.algorithm == "scc" then e.algo
  else if cfg.algorithm == "wcc" then e.algo
  else if cfg.algorithm == "betweenness" then
    Except.error "Betweenness centrality not yet supported"
  else
    Except.error ("Unsupported algorithm: " ++ cfg.algorithm)

/-- The `try` block of one retry-loop iteration: the workflow steps, with
their status transitions and engine-identifier updates, until either all
four steps finish (`none`) or an exception with the given text escapes
(`some msg`).  `_load_graph` passes no `graph_name`, so
`GAEConnectionBase.load_graph` raises its `ValueError` exactly when a
collection list is empty. -/
def tryBody (cfg : AnalysisConfig) (e : AttemptEnv) (r : AnalysisResult) :
    AnalysisResult × Option String :=
  let r := { r with status := AnalysisStatus.engineDeploying }
  match e.deploy with
  | Except.error (msg, captured) =>
    let r := if r.engineId = none then
               match captured with
               | some cid => { r with engineId := some cid }
               | none => r
             else r
    (r, some msg)
  | Except.ok eid =>
  let r := { r with engineId := some eid }
  let r := { r with status := AnalysisStatus.graphLoading }
  if loadGraphRejects none cfg.vertexCollections cfg.edgeCollections then
    (r, some loadGraphValidationError)
  else
    match e.load with
    | Except.error m => (r, some m)
    | Except.ok _ =>
    let r := { r with status := AnalysisStatus.algorithmRunning }
    match runAlgorithmOutcome cfg e with
    | Except.error m => (r, some m)
    | Except.ok _ =>
    let r := { r with status := AnalysisStatus.storingResults }
    match e.store with
    | Except.error m => (r, some m)
    | Except.ok _ => (r, none)

/-- The exception (if any) that escapes one iteration's `try` block: a
function of the configuration and the iteration's environment only. -/
def attemptOutcome (cfg : AnalysisConfig) (e : AttemptEnv) : Option String :=
  match e.deploy with
  | Except.error (msg, _) => some msg
  | Except.ok _ =>
    if loadGraphRejects none cfg.vertexCollections cfg.edgeCollections then
      some loadGraphValidationError
    else
      match e.load with
      | Except.error m => some m
      | Except.ok _ =>
        match runAlgorithmOutcome cfg e with
        | Except.error m => some m
        | Except.ok _ =>
          match e.store with
          | Except.error m => some m
          | Except.ok _ => none

/-- The success epilogue of the `try` block: mark COMPLETED, record end
time / duration / runtime minutes, and compute the cost estimate
`(duration_minutes / 60) * hourly_cost` when the engine size has a
positive hourly rate (`ENGINE_COSTS.get(size, 0)`). -/
def successEpilogue (cfg : AnalysisConfig) (e : AttemptEnv) (r : AnalysisResult) :
    AnalysisResult :=
  let r := { r with status := AnalysisStatus.completed,
                    durationSeconds := some e.dur,
                    engineRuntimeMinutes := some (e.dur / 60) }
  let hourlyCost := (engineCost cfg.engineSize).getD 0
  if 0 < hourlyCost then
    { r with estimatedCostUsd := some (e.dur / 60 / 60 * hourlyCost) }
  else
    r

/-- The `except` block's recording: mark FAILED, store the exception text
and the duration up to the failure point. -/
def failEpilogue (e : AttemptEnv) (msg : String) (r : AnalysisResult) : AnalysisResult :=
  { r with status := AnalysisStatus.failed,
           errorMessage := some msg,
           durationSeconds := some e.dur }

/-- Entry into `_cleanup_engine`: the transient CLEANING_UP status. -/
def cleanupEnter (r : AnalysisResult) : AnalysisResult :=
  { r with status := AnalysisStatus.cleaningUp }

/-- Outcome of `GAEOrchestrator._cleanup_engine`: the mutated result,
whether `gae.delete_engine` succeeded (`ok = false` means the call raised
and the exception propagates to the caller after the `finally`), and the
engine identifier the delete call received. -/
structure CleanupOut where
  result : AnalysisResult
  ok : Bool
  calledOn : Option String
deriving DecidableEq, Repr

/-- `GAEOrchestrator._cleanup_engine`: remember the original status, move
to CLEANING_UP, call `delete_engine(result.engine_id)`, and in a `finally`
restore the original status when it was terminal. -/
def cleanupEngine (deleteOk : Bool) (r : AnalysisResult) : CleanupOut :=
  let original := r.status
  let r2 := cleanupEnter r
  let r3 := if original = AnalysisStatus.completed ∨ original = AnalysisStatus.failed then
              { r2 with status := original }
            else
              r2
  { result := r3, ok := deleteOk, calledOn := r.engineId }

/-- The cleanup-before-retry block inside the retry loop
(`if result.engine_id: try: _cleanup_engine; engine_id = None except:
log`): the identifier reset sits after the cleanup call inside the `try`,
so it only happens when the delete succeeded.  Returns the mutated result
and the delete calls made. -/
def retryCleanup (deleteOk : Bool) (r : AnalysisResult) :
    AnalysisResult × List (Option String) :=
  if r.engineId.isSome then
    let c := cleanupEngine deleteOk r
    if c.ok then
      ({ c.result with engineId := none }, [c.calledOn])
    else
      (c.result, [c.calledOn])
  else
    (r, [])

/-- Observable summary of the retry loop: the final result record, how
many times `gae.deploy_engine` was attempted (one per iteration entered),
and the arguments of the `delete_engine` calls made, in order. -/
structure LoopOut where
  result : AnalysisResult
  deploys : Nat
  deletes : List (Option String)
deriving DecidableEq, Repr

/-- The `if attempt > 0: result.retry_count = attempt` write at the top of
each loop iteration. -/
def loopEntry (attempt : Nat) (r : AnalysisResult) : AnalysisResult :=
  if 0 < attempt then { r with retryCount := attempt } else r

/-- The retry loop (`while attempt < max_attempts`), driven by structural
recursion on `fuel`, which equals `max_retries - attempt` throughout: the
loop's `continue` branch is guarded by `attempt < max_retries`, so under
that invariant the fuel is positive whenever the branch is taken (the
fuel-zero arm of that branch is unreachable and mirrors the `break`
arm).  `retry_count` is written at the top of every iteration but the
first. -/
def runLoopF (cfg : AnalysisConfig) (env : Nat → AttemptEnv) :
    Nat → Nat → AnalysisResult → LoopOut
  | fuel, attempt, r =>
    let rStart := loopEntry attempt r
    let e := env attempt
    let tb := tryBody cfg e rStart
    match tb.2 with
    | none =>
      { result := successEpilogue cfg e tb.1, deploys := 1, deletes := [] }
    | some msg =>
      let r2 := failEpilogue e msg tb.1
      if isRetryableError msg = false then
        { result := r2, deploys := 1, deletes := [] }
      else if cfg.retryOnFailure = true ∧ attempt < cfg.maxRetries then
        match fuel with
        | fuel' + 1 =>
          let rc := retryCleanup e.deleteOk r2
          let rest := runLoopF cfg env fuel' (attempt + 1) rc.1
          { result := rest.result, deploys := rest.deploys + 1,
            deletes := rc.2 ++ rest.deletes }
        | 0 => { result := r2, deploys := 1, deletes := [] }
      else
        { result := r2, deploys := 1, deletes := [] }

/-- The retry loop entered at `attempt`, with its fuel invariant
instantiated. -/
def runLoop (cfg : AnalysisConfig) (env : Nat → AttemptEnv) (attempt : Nat)
    (r : AnalysisResult) : LoopOut :=
  runLoopF cfg env (cfg.maxRetries - attempt) attempt r

/-- The result tracker created at the top of `run_analysis`. -/
def initResult : AnalysisResult := { status := AnalysisStatus.pending }

/-- Observable summary of one `run_analysis` call. -/
structure RunOut where
  result : AnalysisResult
  deploys : Nat
  deletes : List (Option String)
deriving DecidableEq, Repr

/-- `GAEOrchestrator.run_analysis` after its connection initialization and
engine-safety pre-checks (modeled as passing; a pre-check failure raises
before the loop and deploys nothing): the retry loop starting at attempt
0 on a fresh PENDING result, followed by the unconditional final cleanup
block, whose `_cleanup_engine` exception (`finalDeleteOk = false`) is
caught and only logged. -/
def runAnalysis (cfg : AnalysisConfig) (env : Nat → AttemptEnv)
    (finalDeleteOk : Bool) : RunOut :=
  let lo := runLoop cfg env 0 initResult
  let r := lo.result
  if r.engineId.isSome then
    if cfg.autoCleanup then
      let c := cleanupEngine finalDeleteOk r
      { result := c.result, deploys := lo.deploys, deletes := lo.deletes ++ [c.calledOn] }
    else
      { result := r, deploys := lo.deploys, deletes := lo.deletes }
  else
    { result := r, deploys := lo.deploys, deletes := lo.deletes }

/-- An environment in which every external call succeeds. -/
def envAllOk : Nat → AttemptEnv := fun _ =>
  { deploy := Except.ok "engine123", load := Except.ok (), algo := Except.ok (),
    store := Except.ok (), dur := 60, deleteOk := true }

/-- Scenario A configuration: a well-formed pagerank run. -/
def cfgScenA : AnalysisConfig :=
  { name := "test_run", vertexCollections := ["v1"], edgeCollections := ["e1"],
    algorithm := "pagerank", engineSize := "e16", autoCleanup := true,
    retryOnFailure := true, maxRetries := 3 }

example : (runAnalysis cfgScenA envAllOk true).result.status = AnalysisStatus.completed := by
  decide
example : (runAnalysis cfgScenA envAllOk true).deploys = 1 := by decide
example : (runAnalysis cfgScenA envAllOk true).deletes = [some "engine123"] := by decide
example : (runAnalysis cfgScenA envAllOk true).result.retryCount = 0 := by decide

/-- Scenario B environment: deploy raises a transient error once, then
everything succeeds. -/
def envScenB : Nat → AttemptEnv := fun i =>
  if i = 0 then
    { deploy := Except.error ("Transient connection error", none),
      load := Except.ok (), algo := Except.ok (), store := Except.ok (),
      dur := 5, deleteOk := true }
  else
    envAllOk i

example :
    (runAnalysis { cfgScenA with maxRetries := 1 } envScenB true).result.status =
      AnalysisStatus.completed := by decide
example : (runAnalysis { cfgScenA with maxRetries := 1 } envScenB true).result.retryCount = 1 := by
  decide
example : (runAnalysis { cfgScenA with maxRetries := 1 } envScenB true).deploys = 2 := by decide

/-- Scenario C environment: deploy raises a non-retryable configuration
error (no truthy `current_engine_id` is captured). -/
def envScenC : Nat → AttemptEnv := fun _ =>
  { deploy := Except.error ("Invalid configuration: missing API key", none),
    load := Except.ok (), algo := Except.ok (), store := Except.ok (),
    dur := 5, deleteOk := true }

example : (runAnalysis cfgScenA envScenC true).result.status = AnalysisStatus.failed := by decide
example : (runAnalysis cfgScenA envScenC true).result.retryCount = 0 := by decide
example : (runAnalysis cfgScenA envScenC true).deploys = 1 := by decide
example : (runAnalysis cfgScenA envScenC true).deletes = [] := by decide

/-
Helper lemmas about the shapes of the step functions.
-/

/-- The exception escaping a `try` block does not depend on the incoming
result record. -/
lemma tryBody_snd (cfg : AnalysisConfig) (e : AttemptEnv) (r : AnalysisResult) :
    (tryBody cfg e r).2 = attemptOutcome cfg e := by
  rcases hd : e.deploy with ⟨msg, cap⟩ | eid <;> simp only [tryBody, attemptOutcome, hd]
  split
  · rfl
  · rcases hl : e.load with m | u <;> simp only [hl]
    rcases ha : runAlgorithmOutcome cfg e with m | u <;> simp only [ha]
    rcases hs : e.store with m | u <;> simp only [hs]

/-- A `try` block only rewrites the status and engine-identifier fields of
the result record. -/
lemma tryBody_fst_form (cfg : AnalysisConfig) (e : AttemptEnv) (r : AnalysisResult) :
    ∃ st eng, (tryBody cfg e r).1 = { r with status := st, engineId := eng } := by
  rcases hd : e.deploy with ⟨msg, cap⟩ | eid <;> simp only [tryBody, hd]
  · rcases cap with _ | cid
    · exact ⟨AnalysisStatus.engineDeploying, r.engineId, by split <;> rfl⟩
    · split
      · exact ⟨_, _, rfl⟩
      · exact ⟨AnalysisStatus.engineDeploying, r.engineId, rfl⟩
  · split
    · exact ⟨_, _, rfl⟩
    · rcases hl : e.load with m | u <;> simp only [hl]
      · exact ⟨_, _, rfl⟩
      · rcases ha : runAlgorithmOutcome cfg e with m | u <;> simp only [ha]
        · exact ⟨_, _, rfl⟩
        · rcases hs : e.store with m | u <;> simp only [hs]
          · exact ⟨_, _, rfl⟩
          · exact ⟨_, _, rfl⟩

lemma tryBody_errorMessage (cfg : AnalysisConfig) (e : AttemptEnv) (r : AnalysisResult) :
    ((tryBody cfg e r).1).errorMessage = r.errorMessage := by
  obtain ⟨st, eng, h⟩ := tryBody_fst_form cfg e r
  rw [h]

lemma tryBody_estimatedCostUsd (cfg : AnalysisConfig) (e : AttemptEnv) (r : AnalysisResult) :
    ((tryBody cfg e r).1).estimatedCostUsd = r.estimatedCostUsd := by
  obtain ⟨st, eng, h⟩ := tryBody_fst_form cfg e r
  rw [h]

lemma tryBody_retryCount (cfg : AnalysisConfig) (e : AttemptEnv) (r : AnalysisResult) :
    ((tryBody cfg e r).1).retryCount = r.retryCount := by
  obtain ⟨st, eng, h⟩ := tryBody_fst_form cfg e r
  rw [h]

/-- The success epilogue, written out. -/
lemma successEpilogue_eq (cfg : AnalysisConfig) (e : AttemptEnv) (r : AnalysisResult) :
    successEpilogue cfg e r =
      { r with status := AnalysisStatus.completed,
               durationSeconds := some e.dur,
               engineRuntimeMinutes := some (e.dur / 60),
               estimatedCostUsd :=
                 if 0 < (engineCost cfg.engineSize).getD 0 then
                   some (e.dur / 60 / 60 * (engineCost cfg.engineSize).getD 0)
                 else r.estimatedCostUsd } := by
  unfold successEpilogue
  by_cases h : 0 < (engineCost cfg.engineSize).getD 0
  · simp only [if_pos h]
  · simp only [if_neg h]

lemma successEpilogue_status (cfg : AnalysisConfig) (e : AttemptEnv) (r : AnalysisResult) :
    (successEpilogue cfg e r).status = AnalysisStatus.completed := by
  rw [successEpilogue_eq]

lemma failEpilogue_status (e : AttemptEnv) (msg : String) (r : AnalysisResult) :
    (failEpilogue e msg r).status = AnalysisStatus.failed := rfl

/-- `_cleanup_engine` restores a terminal status in its `finally`, leaving
the result record unchanged whether or not the delete call raised. -/
lemma cleanupEngine_result_terminal (b : Bool) (r : AnalysisResult)
    (h : r.status = AnalysisStatus.completed ∨ r.status = AnalysisStatus.failed) :
    (cleanupEngine b r).result = r := by
  unfold cleanupEngine cleanupEnter
  simp only [if_pos h]

lemma cleanupEngine_calledOn (b : Bool) (r : AnalysisResult) :
    (cleanupEngine b r).calledOn = r.engineId := rfl

lemma cleanupEngine_ok (b : Bool) (r : AnalysisResult) :
    (cleanupEngine b r).ok = b := rfl

/-- The between-retries cleanup, written out by cases on the delete
outcome. -/
lemma retryCleanup_eq (b : Bool) (r : AnalysisResult) :
    retryCleanup b r =
      if r.engineId.isSome then
        (if b then { (cleanupEngine b r).result with engineId := none }
         else (cleanupEngine b r).result, [r.engineId])
      else (r, []) := by
  unfold retryCleanup
  by_cases he : r.engineId.isSome
  · simp only [if_pos he, cleanupEngine_ok, cleanupEngine_calledOn]
    by_cases hb : b = true
    · simp only [if_pos hb]
    · simp only [if_neg hb]
  · simp only [if_neg he]

/-- The between-retries cleanup only rewrites status and engine
identifier. -/
lemma retryCleanup_fst_form (b : Bool) (r : AnalysisResult) :
    ∃ st eng, (retryCleanup b r).1 = { r with status := st, engineId := eng } := by
  rw [retryCleanup_eq]
  unfold cleanupEngine cleanupEnter
  by_cases he : r.engineId.isSome
  · simp only [if_pos he]
    by_cases hb : b = true
    · simp only [if_pos hb]
      by_cases ht : r.status = AnalysisStatus.completed ∨ r.status = AnalysisStatus.failed
      · simp only [if_pos ht]
        exact ⟨r.status, none, by cases r; rfl⟩
      · simp only [if_neg ht]
        exact ⟨AnalysisStatus.cleaningUp, none, rfl⟩
    · simp only [if_neg hb]
      by_cases ht : r.status = AnalysisStatus.completed ∨ r.status = AnalysisStatus.failed
      · simp only [if_pos ht]
        exact ⟨r.status, r.engineId, by cases r; rfl⟩
      · simp only [if_neg ht]
        exact ⟨AnalysisStatus.cleaningUp, r.engineId, rfl⟩
  · simp only [if_neg he]
    exact ⟨r.status, r.engineId, by cases r; rfl⟩

/-- The between-retries cleanup preserves a terminal status. -/
lemma retryCleanup_status_terminal (b : Bool) (r : AnalysisResult)
    (h : r.status = AnalysisStatus.completed ∨ r.status = AnalysisStatus.failed) :
    ((retryCleanup b r).1).status = r.status := by
  rw [retryCleanup_eq]
  by_cases he : r.engineId.isSome
  · simp only [if_pos he]
    by_cases hb : b = true
    · simp only [if_pos hb, cleanupEngine_result_terminal b r h]
    · simp only [if_neg hb, cleanupEngine_result_terminal b r h]
  · simp only [if_neg he]

lemma retryCleanup_errorMessage (b : Bool) (r : AnalysisResult) :
    ((retryCleanup b r).1).errorMessage = r.errorMessage := by
  obtain ⟨st, eng, h⟩ := retryCleanup_fst_form b r
  rw [h]

lemma retryCleanup_estimatedCostUsd (b : Bool) (r : AnalysisResult) :
    ((retryCleanup b r).1).estimatedCostUsd = r.estimatedCostUsd := by
  obtain ⟨st, eng, h⟩ := retryCleanup_fst_form b r
  rw [h]

/-
Step lemmas: the retry loop, characterized by the current attempt's
outcome.
-/

/-- When the current attempt's `try` block finishes, the loop breaks with
the success epilogue. -/
lemma runLoopF_of_none (cfg : AnalysisConfig) (env : Nat → AttemptEnv)
    (fuel attempt : Nat) (r : AnalysisResult)
    (h : attemptOutcome cfg (env attempt) = none) :
    runLoopF cfg env fuel attempt r =
      { result := successEpilogue cfg (env attempt)
          (tryBody cfg (env attempt) (loopEntry attempt r)).1,
        deploys := 1, deletes := [] } := by
  have h2 : (tryBody cfg (env attempt) (loopEntry attempt r)).2 = none := by
    rw [tryBody_snd]; exact h
  conv_lhs => rw [runLoopF]
  simp only [h2]

/-- When the current attempt fails non-retryably, the loop breaks with the
failure recording. -/
lemma runLoopF_of_fail_nonretry (cfg : AnalysisConfig) (env : Nat → AttemptEnv)
    (fuel attempt : Nat) (r : AnalysisResult) (msg : String)
    (h : attemptOutcome cfg (env attempt) = some msg)
    (hnr : isRetryableError msg = false) :
    runLoopF cfg env fuel attempt r =
      { result := failEpilogue (env attempt) msg
          (tryBody cfg (env attempt) (loopEntry attempt r)).1,
        deploys := 1, deletes := [] } := by
  have h2 : (tryBody cfg (env attempt) (loopEntry attempt r)).2 = some msg := by
    rw [tryBody_snd]; exact h
  conv_lhs => rw [runLoopF]
  simp only [h2, hnr, eq_self_iff_true, if_true]

lemma not_eq_false_of_retryable (msg : String) (hr : isRetryableError msg = true) :
    ¬(isRetryableError msg = false) := by
  rw [hr]; simp

/-- When the current attempt fails retryably and the guard
`retry_on_failure and attempt < max_retries` holds, the loop cleans up and
continues with the next attempt. -/
lemma runLoopF_of_fail_retry_continue (cfg : AnalysisConfig) (env : Nat → AttemptEnv)
    (fuel attempt : Nat) (r : AnalysisResult) (msg : String)
    (h : attemptOutcome cfg (env attempt) = some msg)
    (hr : isRetryableError msg = true)
    (hg : cfg.retryOnFailure = true ∧ attempt < cfg.maxRetries) :
    runLoopF cfg env (fuel + 1) attempt r =
      { result := (runLoopF cfg env fuel (attempt + 1)
          (retryCleanup (env attempt).deleteOk
            (failEpilogue (env attempt) msg
              (tryBody cfg (env attempt) (loopEntry attempt r)).1)).1).result,
        deploys := (runLoopF cfg env fuel (attempt + 1)
          (retryCleanup (env attempt).deleteOk
            (failEpilogue (env attempt) msg
              (tryBody cfg (env attempt) (loopEntry attempt r)).1)).1).deploys + 1,
        deletes := (retryCleanup (env attempt).deleteOk
            (failEpilogue (env attempt) msg
              (tryBody cfg (env attempt) (loopEntry attempt r)).1)).2 ++
          (runLoopF cfg env fuel (attempt + 1)
            (retryCleanup (env attempt).deleteOk
              (failEpilogue (env attempt) msg
                (tryBody cfg (env attempt) (loopEntry attempt r)).1)).1).deletes } := by
  have h2 : (tryBody cfg (env attempt) (loopEntry attempt r)).2 = some msg := by
    rw [tryBody_snd]; exact h
  have hnr : ¬(isRetryableError msg = false) := not_eq_false_of_retryable msg hr
  conv_lhs => rw [runLoopF]
  simp only [h2, if_neg hnr, if_pos hg]

/-- The unreachable fuel-zero arm of the continue branch (the invariant
`fuel = max_retries - attempt` makes the guard force positive fuel)
behaves like a break. -/
lemma runLoopF_zero_of_fail_retry (cfg : AnalysisConfig) (env : Nat → AttemptEnv)
    (attempt : Nat) (r : AnalysisResult) (msg : String)
    (h : attemptOutcome cfg (env attempt) = some msg)
    (hr : isRetryableError msg = true)
    (hg : cfg.retryOnFailure = true ∧ attempt < cfg.maxRetries) :
    runLoopF cfg env 0 attempt r =
      { result := failEpilogue (env attempt) msg
          (tryBody cfg (env attempt) (loopEntry attempt r)).1,
        deploys := 1, deletes := [] } := by
  have h2 : (tryBody cfg (env attempt) (loopEntry attempt r)).2 = some msg := by
    rw [tryBody_snd]; exact h
  have hnr : ¬(isRetryableError msg = false) := not_eq_false_of_retryable msg hr
  conv_lhs => rw [runLoopF]
  simp only [h2, if_neg hnr, if_pos hg]

/-- When the current attempt fails retryably but the guard does not hold,
the loop breaks with the failure recording. -/
lemma runLoopF_of_fail_retry_break (cfg : AnalysisConfig) (env : Nat → AttemptEnv)
    (fuel attempt : Nat) (r : AnalysisResult) (msg : String)
    (h : attemptOutcome cfg (env attempt) = some msg)
    (hr : isRetryableError msg = true)
    (hg : ¬(cfg.retryOnFailure = true ∧ attempt < cfg.maxRetries)) :
    runLoopF cfg env fuel attempt r =
      { result := failEpilogue (env attempt) msg
          (tryBody cfg (env attempt) (loopEntry attempt r)).1,
        deploys := 1, deletes := [] } := by
  have h2 : (tryBody cfg (env attempt) (loopEntry attempt r)).2 = some msg := by
    rw [tryBody_snd]; exact h
  have hnr : ¬(isRetryableError msg = false) := not_eq_false_of_retryable msg hr
  conv_lhs => rw [runLoopF]
  simp only [h2, if_neg hnr, if_neg hg]

/-- The loop always leaves the result in a terminal status. -/
lemma runLoopF_status_terminal (cfg : AnalysisConfig) (env : Nat → AttemptEnv) :
    ∀ fuel attempt r,
      (runLoopF cfg env fuel attempt r).result.status = AnalysisStatus.completed ∨
      (runLoopF cfg env fuel attempt r).result.status = AnalysisStatus.failed := by
  intro fuel
  induction fuel with
  | zero =>
    intro attempt r
    cases ho : attemptOutcome cfg (env attempt) with
    | none =>
      rw [runLoopF_of_none cfg env 0 attempt r ho]
      left; exact successEpilogue_status _ _ _
    | some msg =>
      cases hr : isRetryableError msg with
      | false =>
        rw [runLoopF_of_fail_nonretry cfg env 0 attempt r msg ho hr]
        right; rfl
      | true =>
        by_cases hg : cfg.retryOnFailure = true ∧ attempt < cfg.maxRetries
        · rw [runLoopF_zero_of_fail_retry cfg env attempt r msg ho hr hg]
          right; rfl
        · rw [runLoopF_of_fail_retry_break cfg env 0 attempt r msg ho hr hg]
          right; rfl
  | succ f ih =>
    intro attempt r
    cases ho : attemptOutcome cfg (env attempt) with
    | none =>
      rw [runLoopF_of_none cfg env (f + 1) attempt r ho]
      left; exact successEpilogue_status _ _ _
    | some msg =>
      cases hr : isRetryableError msg with
      | false =>
        rw [runLoopF_of_fail_nonretry cfg env (f + 1) attempt r msg ho hr]
        right; rfl
      | true =>
        by_cases hg : cfg.retryOnFailure = true ∧ attempt < cfg.maxRetries
        · rw [runLoopF_of_fail_retry_continue cfg env f attempt r msg ho hr hg]
          exact ih _ _
        · rw [runLoopF_of_fail_retry_break cfg env (f + 1) attempt r msg ho hr hg]
          right; rfl

/-- The loop enters at least one and at most `fuel + 1` iterations, hence
makes that many deploy attempts. -/
lemma runLoopF_deploys_bounds (cfg : AnalysisConfig) (env : Nat → AttemptEnv) :
    ∀ fuel attempt r,
      1 ≤ (runLoopF cfg env fuel attempt r).deploys ∧
      (runLoopF cfg env fuel attempt r).deploys ≤ fuel + 1 := by
  intro fuel
  induction fuel with
  | zero =>
    intro attempt r
    cases ho : attemptOutcome cfg (env attempt) with
    | none =>
      rw [runLoopF_of_none cfg env 0 attempt r ho]
      exact ⟨le_refl _, le_refl _⟩
    | some msg =>
      cases hr : isRetryableError msg with
      | false =>
        rw [runLoopF_of_fail_nonretry cfg env 0 attempt r msg ho hr]
        exact ⟨le_refl _, le_refl _⟩
      | true =>
        by_cases hg : cfg.retryOnFailure = true ∧ attempt < cfg.maxRetries
        · rw [runLoopF_zero_of_fail_retry cfg env attempt r msg ho hr hg]
          exact ⟨le_refl _, le_refl _⟩
        · rw [runLoopF_of_fail_retry_break cfg env 0 attempt r msg ho hr hg]
          exact ⟨le_refl _, le_refl _⟩
  | succ f ih =>
    intro attempt r
    cases ho : attemptOutcome cfg (env attempt) with
    | none =>
      rw [runLoopF_of_none cfg env (f + 1) attempt r ho]
      dsimp only
      omega
    | some msg =>
      cases hr : isRetryableError msg with
      | false =>
        rw [runLoopF_of_fail_nonretry cfg env (f + 1) attempt r msg ho hr]
        dsimp only
        omega
      | true =>
        by_cases hg : cfg.retryOnFailure = true ∧ attempt < cfg.maxRetries
        · rw [runLoopF_of_fail_retry_continue cfg env f attempt r msg ho hr hg]
          have h := ih (attempt + 1) (retryCleanup (env attempt).deleteOk
            (failEpilogue (env attempt) msg
              (tryBody cfg (env attempt) (loopEntry attempt r)).1)).1
          dsimp only
          omega
        · rw [runLoopF_of_fail_retry_break cfg env (f + 1) attempt r msg ho hr hg]
          dsimp only
          omega

/-
Run-level lemmas: the final cleanup block never alters the returned
result record or the deploy count.
-/

lemma runLoop_status_terminal (cfg : AnalysisConfig) (env : Nat → AttemptEnv)
    (attempt : Nat) (r : AnalysisResult) :
    (runLoop cfg env attempt r).result.status = AnalysisStatus.completed ∨
    (runLoop cfg env attempt r).result.status = AnalysisStatus.failed :=
  runLoopF_status_terminal cfg env (cfg.maxRetries - attempt) attempt r

/-- The returned result record equals the loop's result record: the final
cleanup enters and leaves CLEANING_UP around the delete call and restores
the terminal status whether or not the delete raises. -/
lemma runAnalysis_result (cfg : AnalysisConfig) (env : Nat → AttemptEnv) (b : Bool) :
    (runAnalysis cfg env b).result = (runLoop cfg env 0 initResult).result := by
  unfold runAnalysis
  by_cases he : (runLoop cfg env 0 initResult).result.engineId.isSome
  · simp only [if_pos he]
    by_cases ha : cfg.autoCleanup = true
    · simp only [if_pos ha]
      exact cleanupEngine_result_terminal b _ (runLoop_status_terminal cfg env 0 initResult)
    · simp only [if_neg ha]
  · simp only [if_neg he]

lemma runAnalysis_deploys (cfg : AnalysisConfig) (env : Nat → AttemptEnv) (b : Bool) :
    (runAnalysis cfg env b).deploys = (runLoop cfg env 0 initResult).deploys := by
  unfold runAnalysis
  by_cases he : (runLoop cfg env 0 initResult).result.engineId.isSome
  · simp only [if_pos he]
    by_cases ha : cfg.autoCleanup = true
    · simp only [if_pos ha]
    · simp only [if_neg ha]
  · simp only [if_neg he]

lemma runAnalysis_retryCount (cfg : AnalysisConfig) (env : Nat → AttemptEnv) (b : Bool) :
    (runAnalysis cfg env b).result.retryCount =
      (runLoop cfg env 0 initResult).result.retryCount := by
  rw [runAnalysis_result]

/-
C1.  Cleanup guarantee: whatever way the retry loop exits, if the result
carries an engine identifier and the configuration asks for auto-cleanup,
`delete_engine` is called on that identifier before `run_analysis`
returns, and a raised final-cleanup exception is swallowed: the call
still returns the loop's result record.  The environment `env` is
arbitrary, covering success, exhausted-retries and non-retryable exits;
`b` is the delete call's outcome, so `b = false` is the raising case.
-/

/-- C1: with auto-cleanup on and an engine identifier present on the
loop's result, the run's delete calls are the loop's followed by one on
that identifier, and the returned result record is exactly the loop's
(also when the delete raises, `b = false`). -/
theorem c1_cleanup_guarantee (cfg : AnalysisConfig) (env : Nat → AttemptEnv)
    (b : Bool) (eid : String)
    (hauto : cfg.autoCleanup = true)
    (heid : (runLoop cfg env 0 initResult).result.engineId = some eid) :
    (runAnalysis cfg env b).deletes =
      (runLoop cfg env 0 initResult).deletes ++ [some eid] ∧
    (runAnalysis cfg env b).result = (runLoop cfg env 0 initResult).result := by
  have hsome : (runLoop cfg env 0 initResult).result.engineId.isSome := by
    rw [heid]; rfl
  refine ⟨?_, runAnalysis_result cfg env b⟩
  unfold runAnalysis
  simp only [if_pos hsome, if_pos hauto]
  rw [cleanupEngine_calledOn, heid]

/-- Witness for C1: success run of scenario A with a raising final
delete (`b = false`); hypotheses hold at `cfgScenA` and the delete call
list gains the deployed engine identifier. -/
theorem c1_witness :
    (runAnalysis cfgScenA envAllOk false).deletes =
      (runLoop cfgScenA envAllOk 0 initResult).deletes ++ [some "engine123"] ∧
    (runAnalysis cfgScenA envAllOk false).result =
      (runLoop cfgScenA envAllOk 0 initResult).result :=
  c1_cleanup_guarantee cfgScenA envAllOk false "engine123" rfl (by decide)

/-
C9.  The CLEANING_UP status is transient: `_cleanup_engine` called on a
terminal result moves it to CLEANING_UP for the duration of the delete
call and restores the terminal status in its `finally`, whether the
delete succeeds (`b = true`) or raises (`b = false`); consequently no
result returned by `run_analysis` is in the CLEANING_UP state.
-/

/-- C9: cleanup on a terminal result passes through CLEANING_UP and
restores the original status on both delete outcomes, and no
`run_analysis` result is ever returned in CLEANING_UP. -/
theorem c9_cleaning_up_transient :
    (∀ (b : Bool) (r : AnalysisResult),
      (r.status = AnalysisStatus.completed ∨ r.status = AnalysisStatus.failed) →
      (cleanupEnter r).status = AnalysisStatus.cleaningUp ∧
      (cleanupEngine b r).result.status = r.status) ∧
    (∀ (cfg : AnalysisConfig) (env : Nat → AttemptEnv) (b : Bool),
      (runAnalysis cfg env b).result.status ≠ AnalysisStatus.cleaningUp) := by
  constructor
  · intro b r h
    exact ⟨rfl, by rw [cleanupEngine_result_terminal b r h]⟩
  · intro cfg env b
    rw [runAnalysis_result]
    rcases runLoop_status_terminal cfg env 0 initResult with h | h <;> rw [h] <;> decide

/-- Witness for C9: the terminal-status hypothesis discharged at a
concrete COMPLETED result with a raising delete call. -/
theorem c9_witness :
    (cleanupEnter { status := AnalysisStatus.completed, engineId := some "eng1" }).status =
      AnalysisStatus.cleaningUp ∧
    (cleanupEngine false
        { status := AnalysisStatus.completed, engineId := some "eng1" }).result.status =
      AnalysisStatus.completed :=
  c9_cleaning_up_transient.1 false
    { status := AnalysisStatus.completed, engineId := some "eng1" } (Or.inl rfl)

/-
C4.  The failure classifier and the fail-fast behavior on non-retryable
errors.
-/

lemma isRetryable_false_of_match (msg : String)
    (h : ∃ p ∈ NON_RETRYABLE_ERRORS, pyInStr (lowerStr p) (lowerStr msg) = true) :
    isRetryableError msg = false := by
  obtain ⟨p, hp, hm⟩ := h
  unfold isRetryableError
  cases hall : NON_RETRYABLE_ERRORS.all (fun q => !(pyInStr (lowerStr q) (lowerStr msg))) with
  | false => rfl
  | true =>
    exfalso
    have := List.all_eq_true.mp hall p hp
    rw [hm] at this
    exact Bool.noConfusion this

lemma isRetryable_true_of_nomatch (m : String)
    (h : ∀ p ∈ NON_RETRYABLE_ERRORS, pyInStr (lowerStr p) (lowerStr m) = false) :
    isRetryableError m = true := by
  unfold isRetryableError
  rw [List.all_eq_true]
  intro p hp
  rw [h p hp]
  rfl

lemma failEpilogue_retryCount (e : AttemptEnv) (msg : String) (r : AnalysisResult) :
    (failEpilogue e msg r).retryCount = r.retryCount := rfl

lemma loopEntry_zero (r : AnalysisResult) : loopEntry 0 r = r := rfl

/-- C4: when the first attempt's escaping error message contains (after
lowercasing both sides) some pattern of the denylist, the retry loop
exits at once: the result's retry count is 0 and `deploy_engine` was
attempted exactly once, for every `max_retries`; and every message
containing no pattern is classified retryable. -/
theorem c4_nonretryable_fail_fast (cfg : AnalysisConfig) (env : Nat → AttemptEnv)
    (b : Bool) (msg : String)
    (hfail : attemptOutcome cfg (env 0) = some msg)
    (hmatch : ∃ p ∈ NON_RETRYABLE_ERRORS, pyInStr (lowerStr p) (lowerStr msg) = true) :
    ((runAnalysis cfg env b).result.retryCount = 0 ∧
     (runAnalysis cfg env b).deploys = 1) ∧
    (∀ m : String,
      (∀ p ∈ NON_RETRYABLE_ERRORS, pyInStr (lowerStr p) (lowerStr m) = false) →
      isRetryableError m = true) := by
  have hnr : isRetryableError msg = false := isRetryable_false_of_match msg hmatch
  refine ⟨?_, fun m hm => isRetryable_true_of_nomatch m hm⟩
  rw [runAnalysis_retryCount, runAnalysis_deploys]
  unfold runLoop
  rw [runLoopF_of_fail_nonretry cfg env (cfg.maxRetries - 0) 0 initResult msg hfail hnr]
  constructor
  · rw [failEpilogue_retryCount, tryBody_retryCount, loopEntry_zero]
    rfl
  · rfl

/-- Witness for C4: scenario C, where deploy raises
"Invalid configuration: missing API key" with `max_retries = 3`. -/
theorem c4_witness :
    (runAnalysis cfgScenA envScenC true).result.retryCount = 0 ∧
    (runAnalysis cfgScenA envScenC true).deploys = 1 :=
  (c4_nonretryable_fail_fast cfgScenA envScenC true
    "Invalid configuration: missing API key" (by decide)
    ⟨"Invalid configuration", by decide, by decide⟩).1

/-
C5.  Deploy-attempt counting.  `failures_until_success` below is `k + 1`,
the 1-based index of the first succeeding attempt: attempts `0 .. k - 1`
fail retryably and attempt `k` succeeds.
-/

lemma runLoopF_deploys_min (cfg : AnalysisConfig) (env : Nat → AttemptEnv) (k : Nat)
    (hfails : ∀ i, i < k →
      ∃ m, attemptOutcome cfg (env i) = some m ∧ isRetryableError m = true)
    (hsucc : attemptOutcome cfg (env k) = none)
    (hretry : cfg.retryOnFailure = true) :
    ∀ fuel attempt r, fuel = cfg.maxRetries - attempt → attempt ≤ cfg.maxRetries →
      attempt ≤ k →
      (runLoopF cfg env fuel attempt r).deploys = min (k - attempt + 1) (fuel + 1) := by
  intro fuel
  induction fuel with
  | zero =>
    intro attempt r hfu hle hak
    by_cases hk : attempt = k
    · subst hk
      rw [runLoopF_of_none cfg env 0 attempt r hsucc]
      dsimp only
      omega
    · have hlt : attempt < k := lt_of_le_of_ne hak hk
      obtain ⟨m, hm, hr⟩ := hfails attempt hlt
      have hge : ¬(cfg.retryOnFailure = true ∧ attempt < cfg.maxRetries) := by
        intro hc
        exact absurd hc.2 (by omega)
      rw [runLoopF_of_fail_retry_break cfg env 0 attempt r m hm hr hge]
      dsimp only
      omega
  | succ f ih =>
    intro attempt r hfu hle hak
    by_cases hk : attempt = k
    · subst hk
      rw [runLoopF_of_none cfg env (f + 1) attempt r hsucc]
      dsimp only
      omega
    · have hlt : attempt < k := lt_of_le_of_ne hak hk
      obtain ⟨m, hm, hr⟩ := hfails attempt hlt
      have hg : cfg.retryOnFailure = true ∧ attempt < cfg.maxRetries := ⟨hretry, by omega⟩
      rw [runLoopF_of_fail_retry_continue cfg env f attempt r m hm hr hg]
      have hrec := ih (attempt + 1) (retryCleanup (env attempt).deleteOk
        (failEpilogue (env attempt) m
          (tryBody cfg (env attempt) (loopEntry attempt r)).1)).1
        (by omega) (by omega) (by omega)
      dsimp only
      omega

/-- C5: with retries enabled and attempts `0 .. k-1` failing retryably
before attempt `k` succeeds, the number of deploy attempts is
`min (failures_until_success) (max_retries + 1)` with
`failures_until_success = k + 1` the attempts needed to reach success;
moreover every run deploys exactly once when retries are disabled, and at
most `max_retries + 1` times in all cases. -/
theorem c5_deploy_attempt_count (cfg : AnalysisConfig) (env : Nat → AttemptEnv)
    (b : Bool) (k : Nat)
    (hfails : ∀ i, i < k →
      ∃ m, attemptOutcome cfg (env i) = some m ∧ isRetryableError m = true)
    (hsucc : attemptOutcome cfg (env k) = none)
    (hretry : cfg.retryOnFailure = true) :
    (runAnalysis cfg env b).deploys = min (k + 1) (cfg.maxRetries + 1) ∧
    (∀ (cfg2 : AnalysisConfig) (env2 : Nat → AttemptEnv) (b2 : Bool),
      cfg2.retryOnFailure = false → (runAnalysis cfg2 env2 b2).deploys = 1) ∧
    (∀ (cfg2 : AnalysisConfig) (env2 : Nat → AttemptEnv) (b2 : Bool),
      (runAnalysis cfg2 env2 b2).deploys ≤ cfg2.maxRetries + 1) := by
  refine ⟨?_, ?_, ?_⟩
  · rw [runAnalysis_deploys]
    unfold runLoop
    have h := runLoopF_deploys_min cfg env k hfails hsucc hretry
      (cfg.maxRetries - 0) 0 initResult rfl (Nat.zero_le _) (Nat.zero_le _)
    rw [h]
    omega
  · intro cfg2 env2 b2 hro
    rw [runAnalysis_deploys]
    unfold runLoop
    cases ho : attemptOutcome cfg2 (env2 0) with
    | none => rw [runLoopF_of_none cfg2 env2 (cfg2.maxRetries - 0) 0 initResult ho]
    | some m =>
      cases hr : isRetryableError m with
      | false =>
        rw [runLoopF_of_fail_nonretry cfg2 env2 (cfg2.maxRetries - 0) 0 initResult m ho hr]
      | true =>
        have hg : ¬(cfg2.retryOnFailure = true ∧ 0 < cfg2.maxRetries) := by
          intro hc
          rw [hro] at hc
          exact Bool.noConfusion hc.1
        rw [runLoopF_of_fail_retry_break cfg2 env2 (cfg2.maxRetries - 0) 0 initResult m ho hr hg]
  · intro cfg2 env2 b2
    rw [runAnalysis_deploys]
    exact (runLoopF_deploys_bounds cfg2 env2 (cfg2.maxRetries - 0) 0 initResult).2

/-- Witness for C5: scenario B, one retryable failure then success with
`max_retries = 1`: two deploy attempts, `min 2 2`. -/
theorem c5_witness :
    (runAnalysis { cfgScenA with maxRetries := 1 } envScenB true).deploys = min 2 2 :=
  (c5_deploy_attempt_count { cfgScenA with maxRetries := 1 } envScenB true 1
    (by
      intro i hi
      interval_cases i
      exact ⟨"Transient connection error", by decide, by decide⟩)
    (by decide) rfl).1

/-
C2.  Configurations that supply neither a named graph nor both non-empty
collection lists.  The claim asserts fail-fast validation: FAILED with
zero retries and no deploy call.  In the source, `run_analysis` performs
no such validation before the loop; the `ValueError` is raised by
`load_graph` after `deploy_engine` has already been called, its message
matches no non-retryable pattern, so the failure is retried up to
`max_retries` times.
-/

/-- A config with an empty vertex-collection list (and no named-graph
alternative: `AnalysisConfig` has no such field and the orchestrator
passes no `graph_name`). -/
def cfgNoVertex : AnalysisConfig :=
  { name := "missing_vertices", vertexCollections := [], edgeCollections := ["e1"] }

/-- Counterexample to C2: with every deploy call succeeding, the invalid
config still gets `deploy_engine` called `max_retries + 1 = 4` times and
ends with `retry_count = 3`, not zero deploys and zero retries. -/
theorem c2_counterexample :
    (runAnalysis cfgNoVertex envAllOk true).result.status = AnalysisStatus.failed ∧
    ¬((runAnalysis cfgNoVertex envAllOk true).deploys = 0) ∧
    ¬((runAnalysis cfgNoVertex envAllOk true).result.retryCount = 0) ∧
    (runAnalysis cfgNoVertex envAllOk true).deploys = 4 ∧
    (runAnalysis cfgNoVertex envAllOk true).result.retryCount = 3 := by
  decide

lemma attemptOutcome_invalid_config (cfg : AnalysisConfig) (e : AttemptEnv)
    (hbad : (cfg.vertexCollections.isEmpty || cfg.edgeCollections.isEmpty) = true)
    (hd : ∃ eid, e.deploy = Except.ok eid) :
    attemptOutcome cfg e = some loadGraphValidationError := by
  obtain ⟨eid, hdep⟩ := hd
  have hrej : loadGraphRejects none cfg.vertexCollections cfg.edgeCollections = true := by
    unfold loadGraphRejects
    simp [hbad]
  unfold attemptOutcome
  rw [hdep]
  simp only [if_pos hrej]

lemma isRetryable_validation : isRetryableError loadGraphValidationError = true := by decide

lemma runLoopF_invalid_config (cfg : AnalysisConfig) (env : Nat → AttemptEnv)
    (hbad : (cfg.vertexCollections.isEmpty || cfg.edgeCollections.isEmpty) = true)
    (hdeploy : ∀ i, ∃ eid, (env i).deploy = Except.ok eid)
    (hretry : cfg.retryOnFailure = true) :
    ∀ fuel attempt r, fuel = cfg.maxRetries - attempt → attempt ≤ cfg.maxRetries →
      (runLoopF cfg env fuel attempt r).result.status = AnalysisStatus.failed ∧
      (runLoopF cfg env fuel attempt r).result.errorMessage =
        some loadGraphValidationError ∧
      (runLoopF cfg env fuel attempt r).deploys = fuel + 1 ∧
      (runLoopF cfg env fuel attempt r).result.retryCount =
        (if cfg.maxRetries = 0 then r.retryCount else cfg.maxRetries) := by
  intro fuel
  induction fuel with
  | zero =>
    intro attempt r hfu hle
    have ho := attemptOutcome_invalid_config cfg (env attempt) hbad (hdeploy attempt)
    have hge : ¬(cfg.retryOnFailure = true ∧ attempt < cfg.maxRetries) := by
      intro hc
      exact absurd hc.2 (by omega)
    rw [runLoopF_of_fail_retry_break cfg env 0 attempt r loadGraphValidationError ho
      isRetryable_validation hge]
    refine ⟨rfl, rfl, rfl, ?_⟩
    have ha : attempt = cfg.maxRetries := by omega
    dsimp only
    rw [failEpilogue_retryCount, tryBody_retryCount]
    unfold loopEntry
    by_cases h0 : cfg.maxRetries = 0
    · simp [ha, h0]
    · simp [ha, h0, Nat.pos_of_ne_zero h0]
  | succ f ih =>
    intro attempt r hfu hle
    have ho := attemptOutcome_invalid_config cfg (env attempt) hbad (hdeploy attempt)
    have hg : cfg.retryOnFailure = true ∧ attempt < cfg.maxRetries := ⟨hretry, by omega⟩
    rw [runLoopF_of_fail_retry_continue cfg env f attempt r loadGraphValidationError ho
      isRetryable_validation hg]
    have hrec := ih (attempt + 1) (retryCleanup (env attempt).deleteOk
      (failEpilogue (env attempt) loadGraphValidationError
        (tryBody cfg (env attempt) (loopEntry attempt r)).1)).1
      (by omega) (by omega)
    have hm0 : ¬(cfg.maxRetries = 0) := by omega
    refine ⟨hrec.1, hrec.2.1, ?_, ?_⟩
    · dsimp only
      omega
    · rw [if_neg hm0]
      have h4 := hrec.2.2.2
      rw [if_neg hm0] at h4
      exact h4

/-- Amended C2: a config missing a non-empty vertex/edge collection pair
(there is no named-graph field) makes every loop iteration fail with the
`load_graph` validation error, but only after `deploy_engine` has been
called in that iteration; the message matches no non-retryable pattern,
so with retries enabled the run ends FAILED carrying that message after
`max_retries + 1` deploy attempts and `retry_count = max_retries`. -/
theorem c2_amended_invalid_config_is_retried (cfg : AnalysisConfig)
    (env : Nat → AttemptEnv) (b : Bool)
    (hbad : (cfg.vertexCollections.isEmpty || cfg.edgeCollections.isEmpty) = true)
    (hdeploy : ∀ i, ∃ eid, (env i).deploy = Except.ok eid)
    (hretry : cfg.retryOnFailure = true) :
    (runAnalysis cfg env b).result.status = AnalysisStatus.failed ∧
    (runAnalysis cfg env b).result.errorMessage = some loadGraphValidationError ∧
    (runAnalysis cfg env b).deploys = cfg.maxRetries + 1 ∧
    (runAnalysis cfg env b).result.retryCount = cfg.maxRetries := by
  have h := runLoopF_invalid_config cfg env hbad hdeploy hretry
    (cfg.maxRetries - 0) 0 initResult rfl (Nat.zero_le _)
  rw [runAnalysis_result, runAnalysis_deploys]
  unfold runLoop
  refine ⟨h.1, h.2.1, ?_, ?_⟩
  · rw [h.2.2.1]
    omega
  · rw [h.2.2.2]
    by_cases h0 : cfg.maxRetries = 0
    · rw [if_pos h0, h0]
      rfl
    · rw [if_neg h0]

/-- Witness for the amended C2 at the concrete invalid config. -/
theorem c2_amended_witness :
    (runAnalysis cfgNoVertex envAllOk true).result.status = AnalysisStatus.failed ∧
    (runAnalysis cfgNoVertex envAllOk true).result.errorMessage =
      some loadGraphValidationError ∧
    (runAnalysis cfgNoVertex envAllOk true).deploys = cfgNoVertex.maxRetries + 1 ∧
    (runAnalysis cfgNoVertex envAllOk true).result.retryCount = cfgNoVertex.maxRetries :=
  c2_amended_invalid_config_is_retried cfgNoVertex envAllOk true (by decide)
    (fun i => ⟨"engine123", rfl⟩) rfl

/-
C10.  A successful retry does not clear the error message recorded by the
preceding failed iteration: the success epilogue never writes
`error_message`.
-/

lemma successEpilogue_errorMessage (cfg : AnalysisConfig) (e : AttemptEnv)
    (r : AnalysisResult) :
    (successEpilogue cfg e r).errorMessage = r.errorMessage := by
  rw [successEpilogue_eq]

lemma successEpilogue_durationSeconds (cfg : AnalysisConfig) (e : AttemptEnv)
    (r : AnalysisResult) :
    (successEpilogue cfg e r).durationSeconds = some e.dur := by
  rw [successEpilogue_eq]

lemma failEpilogue_errorMessage (e : AttemptEnv) (msg : String) (r : AnalysisResult) :
    (failEpilogue e msg r).errorMessage = some msg := rfl

lemma loopEntry_errorMessage (attempt : Nat) (r : AnalysisResult) :
    (loopEntry attempt r).errorMessage = r.errorMessage := by
  unfold loopEntry
  split <;> rfl

lemma runLoopF_success_after_failures (cfg : AnalysisConfig) (env : Nat → AttemptEnv)
    (k : Nat) (m : String)
    (hfails : ∀ i, i < k →
      ∃ mi, attemptOutcome cfg (env i) = some mi ∧ isRetryableError mi = true)
    (hlast : attemptOutcome cfg (env (k - 1)) = some m)
    (hsucc : attemptOutcome cfg (env k) = none)
    (hretry : cfg.retryOnFailure = true)
    (hk : k ≤ cfg.maxRetries) :
    ∀ fuel attempt r, fuel = cfg.maxRetries - attempt → attempt ≤ k →
      (runLoopF cfg env fuel attempt r).result.status = AnalysisStatus.completed ∧
      (runLoopF cfg env fuel attempt r).result.errorMessage =
        (if attempt = k then r.errorMessage else some m) := by
  intro fuel
  induction fuel with
  | zero =>
    intro attempt r hfu hak
    have hae : attempt = k := by omega
    rw [hae, runLoopF_of_none cfg env 0 k r (by rw [← hae] at hsucc ⊢; exact hsucc)]
    refine ⟨successEpilogue_status _ _ _, ?_⟩
    rw [if_pos rfl, successEpilogue_errorMessage, tryBody_errorMessage, loopEntry_errorMessage]
  | succ f ih =>
    intro attempt r hfu hak
    by_cases hae : attempt = k
    · subst hae
      rw [runLoopF_of_none cfg env (f + 1) attempt r hsucc]
      refine ⟨successEpilogue_status _ _ _, ?_⟩
      rw [if_pos rfl, successEpilogue_errorMessage, tryBody_errorMessage, loopEntry_errorMessage]
    · have hlt : attempt < k := lt_of_le_of_ne hak hae
      obtain ⟨mi, hmi, hri⟩ := hfails attempt hlt
      have hg : cfg.retryOnFailure = true ∧ attempt < cfg.maxRetries := ⟨hretry, by omega⟩
      rw [runLoopF_of_fail_retry_continue cfg env f attempt r mi hmi hri hg]
      have hrec := ih (attempt + 1) (retryCleanup (env attempt).deleteOk
        (failEpilogue (env attempt) mi
          (tryBody cfg (env attempt) (loopEntry attempt r)).1)).1
        (by omega) (by omega)
      refine ⟨hrec.1, ?_⟩
      rw [if_neg hae]
      by_cases hk1 : attempt + 1 = k
      · have hmm : mi = m := by
          have : attempt = k - 1 := by omega
          rw [this] at hmi
          rw [hlast] at hmi
          exact ((Option.some.injEq m mi).mp hmi).symm
        rw [hrec.2, if_pos hk1, retryCleanup_errorMessage, failEpilogue_errorMessage, hmm]
      · rw [hrec.2, if_neg hk1]

/-- C10: when attempts `0 .. k-1` (with `k > 0`) fail retryably, the last
of them with message `m`, and attempt `k` succeeds within the retry
budget, the returned result is COMPLETED but still carries
`error_message = m` from the last failed iteration. -/
theorem c10_success_keeps_last_error (cfg : AnalysisConfig) (env : Nat → AttemptEnv)
    (b : Bool) (k : Nat) (m : String)
    (hk0 : 0 < k)
    (hfails : ∀ i, i < k →
      ∃ mi, attemptOutcome cfg (env i) = some mi ∧ isRetryableError mi = true)
    (hlast : attemptOutcome cfg (env (k - 1)) = some m)
    (hsucc : attemptOutcome cfg (env k) = none)
    (hretry : cfg.retryOnFailure = true)
    (hk : k ≤ cfg.maxRetries) :
    (runAnalysis cfg env b).result.status = AnalysisStatus.completed ∧
    (runAnalysis cfg env b).result.errorMessage = some m := by
  have h := runLoopF_success_after_failures cfg env k m hfails hlast hsucc hretry hk
    (cfg.maxRetries - 0) 0 initResult rfl (Nat.zero_le _)
  rw [runAnalysis_result]
  unfold runLoop
  refine ⟨h.1, ?_⟩
  have hne : ¬(0 = k) := by omega
  rw [h.2, if_neg hne]

/-- Witness for C10: scenario B, success on the second attempt with the
first attempt's transient deploy error still recorded. -/
theorem c10_witness :
    (runAnalysis { cfgScenA with maxRetries := 1 } envScenB true).result.status =
      AnalysisStatus.completed ∧
    (runAnalysis { cfgScenA with maxRetries := 1 } envScenB true).result.errorMessage =
      some "Transient connection error" :=
  c10_success_keeps_last_error { cfgScenA with maxRetries := 1 } envScenB true 1
    "Transient connection error" (by omega)
    (by
      intro i hi
      interval_cases i
      exact ⟨"Transient connection error", by decide, by decide⟩)
    (by decide) (by decide) rfl (by decide)

/-
C6.  The cost estimate on success.  The claim says the estimate "equals 0
when the engine size has no rate-table entry"; in the source the field is
simply left unset (`None`), because the assignment is guarded by
`if hourly_cost > 0`.
-/

lemma engineCost_pos (s : String) (rate : Rat) (h : engineCost s = some rate) :
    0 < rate := by
  unfold engineCost at h
  cases hf : ENGINE_COSTS.find? (fun p => p.1 == s) with
  | none =>
    rw [hf] at h
    exact Option.noConfusion h
  | some p =>
    rw [hf] at h
    have hm : p ∈ ENGINE_COSTS := List.mem_of_find?_eq_some hf
    have hall : ∀ q ∈ ENGINE_COSTS, 0 < q.2 := by decide
    have hpr : p.2 = rate := by
      simpa using h
    rw [← hpr]
    exact hall p hm

lemma loopEntry_estimatedCostUsd (attempt : Nat) (r : AnalysisResult) :
    (loopEntry attempt r).estimatedCostUsd = r.estimatedCostUsd := by
  unfold loopEntry
  split <;> rfl

lemma failEpilogue_estimatedCostUsd (e : AttemptEnv) (msg : String) (r : AnalysisResult) :
    (failEpilogue e msg r).estimatedCostUsd = r.estimatedCostUsd := rfl

lemma successEpilogue_estimatedCostUsd (cfg : AnalysisConfig) (e : AttemptEnv)
    (r : AnalysisResult) :
    (successEpilogue cfg e r).estimatedCostUsd =
      (if 0 < (engineCost cfg.engineSize).getD 0 then
         some (e.dur / 60 / 60 * (engineCost cfg.engineSize).getD 0)
       else r.estimatedCostUsd) := by
  rw [successEpilogue_eq]

lemma runLoopF_cost (cfg : AnalysisConfig) (env : Nat → AttemptEnv) :
    ∀ fuel attempt r, r.estimatedCostUsd = none →
      ((runLoopF cfg env fuel attempt r).result.status = AnalysisStatus.completed →
        ∃ d, (runLoopF cfg env fuel attempt r).result.durationSeconds = some d ∧
          (runLoopF cfg env fuel attempt r).result.estimatedCostUsd =
            (if 0 < (engineCost cfg.engineSize).getD 0 then
               some (d / 60 / 60 * (engineCost cfg.engineSize).getD 0)
             else none)) ∧
      ((runLoopF cfg env fuel attempt r).result.status = AnalysisStatus.failed →
        (runLoopF cfg env fuel attempt r).result.estimatedCostUsd = none) := by
  have hchain : ∀ attempt (r : AnalysisResult) msg, r.estimatedCostUsd = none →
      (retryCleanup (env attempt).deleteOk
        (failEpilogue (env attempt) msg
          (tryBody cfg (env attempt) (loopEntry attempt r)).1)).1.estimatedCostUsd = none := by
    intro attempt r msg hr
    rw [retryCleanup_estimatedCostUsd, failEpilogue_estimatedCostUsd,
      tryBody_estimatedCostUsd, loopEntry_estimatedCostUsd, hr]
  have hsucccase : ∀ attempt (r : AnalysisResult), r.estimatedCostUsd = none →
      ∃ d, (successEpilogue cfg (env attempt)
          (tryBody cfg (env attempt) (loopEntry attempt r)).1).durationSeconds = some d ∧
        (successEpilogue cfg (env attempt)
          (tryBody cfg (env attempt) (loopEntry attempt r)).1).estimatedCostUsd =
          (if 0 < (engineCost cfg.engineSize).getD 0 then
             some (d / 60 / 60 * (engineCost cfg.engineSize).getD 0)
           else none) := by
    intro attempt r hr
    refine ⟨(env attempt).dur, successEpilogue_durationSeconds _ _ _, ?_⟩
    rw [successEpilogue_estimatedCostUsd, tryBody_estimatedCostUsd,
      loopEntry_estimatedCostUsd, hr]
  intro fuel
  induction fuel with
  | zero =>
    intro attempt r hr
    cases ho : attemptOutcome cfg (env attempt) with
    | none =>
      rw [runLoopF_of_none cfg env 0 attempt r ho]
      refine ⟨fun _ => hsucccase attempt r hr, fun hc => ?_⟩
      rw [successEpilogue_status] at hc
      exact absurd hc (by decide)
    | some msg =>
      cases hri : isRetryableError msg with
      | false =>
        rw [runLoopF_of_fail_nonretry cfg env 0 attempt r msg ho hri]
        refine ⟨fun hc => (nomatch hc), fun _ => ?_⟩
        rw [failEpilogue_estimatedCostUsd, tryBody_estimatedCostUsd,
          loopEntry_estimatedCostUsd, hr]
      | true =>
        by_cases hg : cfg.retryOnFailure = true ∧ attempt < cfg.maxRetries
        · rw [runLoopF_zero_of_fail_retry cfg env attempt r msg ho hri hg]
          refine ⟨fun hc => (nomatch hc), fun _ => ?_⟩
          rw [failEpilogue_estimatedCostUsd, tryBody_estimatedCostUsd,
            loopEntry_estimatedCostUsd, hr]
        · rw [runLoopF_of_fail_retry_break cfg env 0 attempt r msg ho hri hg]
          refine ⟨fun hc => (nomatch hc), fun _ => ?_⟩
          rw [failEpilogue_estimatedCostUsd, tryBody_estimatedCostUsd,
            loopEntry_estimatedCostUsd, hr]
  | succ f ih =>
    intro attempt r hr
    cases ho : attemptOutcome cfg (env attempt) with
    | none =>
      rw [runLoopF_of_none cfg env (f + 1) attempt r ho]
      refine ⟨fun _ => hsucccase attempt r hr, fun hc => ?_⟩
      rw [successEpilogue_status] at hc
      exact absurd hc (by decide)
    | some msg =>
      cases hri : isRetryableError msg with
      | false =>
        rw [runLoopF_of_fail_nonretry cfg env (f + 1) attempt r msg ho hri]
        refine ⟨fun hc => (nomatch hc), fun _ => ?_⟩
        rw [failEpilogue_estimatedCostUsd, tryBody_estimatedCostUsd,
          loopEntry_estimatedCostUsd, hr]
      | true =>
        by_cases hg : cfg.retryOnFailure = true ∧ attempt < cfg.maxRetries
        · rw [runLoopF_of_fail_retry_continue cfg env f attempt r msg ho hri hg]
          exact ih (attempt + 1) _ (hchain attempt r msg hr)
        · rw [runLoopF_of_fail_retry_break cfg env (f + 1) attempt r msg ho hri hg]
          refine ⟨fun hc => (nomatch hc), fun _ => ?_⟩
          rw [failEpilogue_estimatedCostUsd, tryBody_estimatedCostUsd,
            loopEntry_estimatedCostUsd, hr]

/-- A config whose engine size has no entry in the rate table. -/
def cfgUnknownSize : AnalysisConfig := { cfgScenA with engineSize := "e2" }

/-- Counterexample to C6: a successful run with an engine size absent
from the rate table leaves `estimated_cost_usd` unset (`None`), which is
not the value 0 the claim asserts. -/
theorem c6_counterexample :
    (runAnalysis cfgUnknownSize envAllOk true).result.status = AnalysisStatus.completed ∧
    (runAnalysis cfgUnknownSize envAllOk true).result.estimatedCostUsd = none ∧
    ¬((runAnalysis cfgUnknownSize envAllOk true).result.estimatedCostUsd = some 0) := by
  refine ⟨by decide, by decide, ?_⟩
  intro hc
  rw [(by decide : (runAnalysis cfgUnknownSize envAllOk true).result.estimatedCostUsd =
    none)] at hc
  exact Option.noConfusion hc

/-- Amended C6: on success the cost estimate equals
`(duration_seconds / 60 / 60) * hourly_rate(engine_size)` whenever the
engine size has a rate-table entry (all rates are positive), and the
field is left unset (`None`, not 0) when it has none. -/
theorem c6_cost_estimate (cfg : AnalysisConfig) (env : Nat → AttemptEnv) (b : Bool)
    (hc : (runAnalysis cfg env b).result.status = AnalysisStatus.completed) :
    (∀ rate, engineCost cfg.engineSize = some rate →
      ∃ d, (runAnalysis cfg env b).result.durationSeconds = some d ∧
        (runAnalysis cfg env b).result.estimatedCostUsd = some (d / 60 / 60 * rate)) ∧
    (engineCost cfg.engineSize = none →
      (runAnalysis cfg env b).result.estimatedCostUsd = none) := by
  rw [runAnalysis_result] at hc ⊢
  unfold runLoop at hc ⊢
  have h := (runLoopF_cost cfg env (cfg.maxRetries - 0) 0 initResult rfl).1 hc
  obtain ⟨d, hd, hcost⟩ := h
  constructor
  · intro rate hrate
    refine ⟨d, hd, ?_⟩
    rw [hcost, hrate]
    have hpos : 0 < rate := engineCost_pos cfg.engineSize rate hrate
    rw [if_pos (by simpa using hpos)]
    rfl
  · intro hnone
    rw [hcost, hnone]
    rw [if_neg (by simp)]

/-- Witness for the amended C6: scenario A on an `e16` engine. -/
theorem c6_witness :
    ∃ d, (runAnalysis cfgScenA envAllOk true).result.durationSeconds = some d ∧
      (runAnalysis cfgScenA envAllOk true).result.estimatedCostUsd =
        some (d / 60 / 60 * mkRat 40 100) :=
  (c6_cost_estimate cfgScenA envAllOk true (by decide)).1 (mkRat 40 100) (by decide)

/-
C7.  Cleanup between retries.  The claim asserts the next iteration
always starts with a cleared engine identifier, "including in the case
where the teardown itself raised".  In the source the clearing assignment
`result.engine_id = None` sits inside the `try` after the
`_cleanup_engine` call, so it is skipped exactly when the delete raised;
the exception is caught and the loop does proceed to the next iteration.
-/

lemma cleanupEngine_engineId (b : Bool) (r : AnalysisResult) :
    (cleanupEngine b r).result.engineId = r.engineId := by
  unfold cleanupEngine cleanupEnter
  by_cases ht : r.status = AnalysisStatus.completed ∨ r.status = AnalysisStatus.failed
  · simp only [if_pos ht]
  · simp only [if_neg ht]

/-- A failed-iteration result holding a deployed engine identifier. -/
def rFailedWithEngine : AnalysisResult :=
  { status := AnalysisStatus.failed, engineId := some "eng1",
    errorMessage := some "Transient error" }

/-- Environment for the C7 counterexample run: attempt 0 deploys `eng1`
and fails retryably at graph loading, its pre-retry teardown raises
(`deleteOk = false`); attempt 1 fails retryably at deploy with nothing
captured and the retry budget (`max_retries = 1`) is exhausted. -/
def envC7 : Nat → AttemptEnv := fun i =>
  if i = 0 then
    { deploy := Except.ok "eng1", load := Except.error "Transient load error",
      algo := Except.ok (), store := Except.ok (), dur := 5, deleteOk := false }
  else
    { deploy := Except.error ("Transient deploy error", none), load := Except.ok (),
      algo := Except.ok (), store := Except.ok (), dur := 7, deleteOk := false }

def cfgC7 : AnalysisConfig := { cfgScenA with name := "c7", maxRetries := 1 }

/-- Counterexample to C7: when the pre-retry teardown raises, the engine
identifier is NOT cleared — neither on the cleanup block itself nor on a
whole run in which the raising teardown is followed by a further
iteration (the returned result still carries `eng1` from attempt 0). -/
theorem c7_counterexample :
    (retryCleanup false rFailedWithEngine).1.engineId = some "eng1" ∧
    ¬((retryCleanup false rFailedWithEngine).1.engineId = none) ∧
    (runAnalysis cfgC7 envC7 true).result.engineId = some "eng1" ∧
    (runAnalysis cfgC7 envC7 true).deploys = 2 := by
  decide

/-- Amended C7: on a retryable failure with attempts remaining, a
recorded engine identifier is torn down before the next iteration and a
raising teardown is caught — the loop still enters the next iteration
(at least two deploy attempts) — but the identifier is cleared only when
the teardown succeeded; it is left set when the teardown raised. -/
theorem c7_retry_teardown (cfg : AnalysisConfig) (env : Nat → AttemptEnv)
    (fuel attempt : Nat) (r : AnalysisResult) (msg : String)
    (hfail : attemptOutcome cfg (env attempt) = some msg)
    (hretryable : isRetryableError msg = true)
    (hro : cfg.retryOnFailure = true)
    (hlt : attempt < cfg.maxRetries) :
    (∀ (b : Bool) (r2 : AnalysisResult),
      (retryCleanup b r2).1.engineId = (if b = true then none else r2.engineId) ∧
      (retryCleanup b r2).2 = (if r2.engineId.isSome then [r2.engineId] else [])) ∧
    2 ≤ (runLoopF cfg env (fuel + 1) attempt r).deploys := by
  constructor
  · intro b r2
    rw [retryCleanup_eq]
    by_cases he : r2.engineId.isSome
    · simp only [if_pos he]
      by_cases hb : b = true
      · simp only [if_pos hb]
        exact ⟨trivial, trivial⟩
      · simp only [if_neg hb]
        exact ⟨cleanupEngine_engineId b r2, trivial⟩
    · simp only [if_neg he]
      have hn : r2.engineId = none := Option.not_isSome_iff_eq_none.mp he
      constructor
      · rw [hn]
        by_cases hb : b = true
        · rw [if_pos hb]
        · rw [if_neg hb]
      · trivial
  · rw [runLoopF_of_fail_retry_continue cfg env fuel attempt r msg hfail hretryable
      ⟨hro, hlt⟩]
    have h := (runLoopF_deploys_bounds cfg env fuel (attempt + 1)
      (retryCleanup (env attempt).deleteOk
        (failEpilogue (env attempt) msg
          (tryBody cfg (env attempt) (loopEntry attempt r)).1)).1).1
    dsimp only
    omega

/-- Witness for the amended C7 at the concrete raising-teardown run. -/
theorem c7_witness :
    (retryCleanup false rFailedWithEngine).1.engineId =
      (if false = true then none else rFailedWithEngine.engineId) ∧
    2 ≤ (runLoopF cfgC7 envC7 1 0 initResult).deploys :=
  ⟨((c7_retry_teardown cfgC7 envC7 0 0 initResult "Transient load error" (by decide)
      (by decide) rfl (by decide)).1 false rFailedWithEngine).1,
   (c7_retry_teardown cfgC7 envC7 0 0 initResult "Transient load error" (by decide)
      (by decide) rfl (by decide)).2⟩

/-
C8.  The progress/total shape of the orchestrator's job poller: checked
before the status and state shapes, the explicit error flag first, then
success exactly when `progress >= total and total > 0`; otherwise the
poller keeps polling, so a 5-of-10 job never succeeds before reaching
10-of-10.
-/

def jobFiveOfTen : Job := [("progress", JVal.num 5), ("total", JVal.num 10)]

def jobTenOfTen : Job := [("progress", JVal.num 10), ("total", JVal.num 10)]

/-- C8: for any record with numeric `progress` and `total` fields — even
one also carrying `status` or `state` keys, which the precedence order
ignores — a truthy error flag raises at once carrying the record's error
message; otherwise inspection succeeds exactly when
`progress >= total and total > 0` and keeps polling otherwise; and a
poll sequence of `n` 5-of-10 records followed by a 10-of-10 record
reaches success exactly at the final poll. -/
theorem c8_progress_shape (job : Job) (p t : Int)
    (hp : job.get? "progress" = some (JVal.num p))
    (ht : job.get? "total" = some (JVal.num t)) :
    (∀ v, job.get? "error" = some v → truthy v = true →
      pollStep job =
        PollOutcome.failure ((job.get? "error_message").getD (JVal.str "Unknown error"))) ∧
    ((job.get? "error" = none ∨ ∃ v, job.get? "error" = some v ∧ truthy v = false) →
      (pollStep job = PollOutcome.success ↔ (t ≤ p ∧ 0 < t)) ∧
      (¬(t ≤ p ∧ 0 < t) → pollStep job = PollOutcome.running)) ∧
    (∀ n, pollTrace (List.replicate n jobFiveOfTen ++ [jobTenOfTen]) =
      some (n, PollOutcome.success)) := by
  have hpp : ((job.get? "progress").isSome && (job.get? "total").isSome) = true := by
    rw [hp, ht]
    rfl
  have hnum : job.getNumD "progress" 0 = p := by
    unfold Job.getNumD
    rw [hp]
  have htot : job.getNumD "total" 1 = t := by
    unfold Job.getNumD
    rw [ht]
  refine ⟨?_, ?_, ?_⟩
  · intro v hv htr
    unfold pollStep
    rw [if_pos hpp]
    simp [hv, htr]
  · intro herr
    have hred : pollStep job =
        (if t ≤ p ∧ 0 < t then PollOutcome.success else PollOutcome.running) := by
      unfold pollStep
      rw [if_pos hpp]
      rcases herr with hnone | ⟨v, hv, hf⟩
      · simp [hnone, hnum, htot]
      · simp [hv, hf, hnum, htot]
    rw [hred]
    by_cases hc : t ≤ p ∧ 0 < t
    · rw [if_pos hc]
      exact ⟨⟨fun _ => hc, fun _ => rfl⟩, fun hn => absurd hc hn⟩
    · rw [if_neg hc]
      exact ⟨⟨fun h => absurd h (by decide), fun hm => absurd hm hc⟩, fun _ => rfl⟩
  · intro n
    induction n with
    | zero => decide
    | succ k ihk =>
      rw [List.replicate_succ, List.cons_append]
      have hstep : pollStep jobFiveOfTen = PollOutcome.running := by decide
      unfold pollTrace
      rw [hstep, ihk]
      rfl

/-- Witness for C8 at the completed 10-of-10 record (no error flag). -/
theorem c8_witness : pollStep jobTenOfTen = PollOutcome.success :=
  ((c8_progress_shape jobTenOfTen 10 10 rfl rfl).2.1 (Or.inl rfl)).1.mpr (by decide)

/-
C3.  The state-string shape.  The claim's completed-state set is the
four-element `COMPLETED_STATES` of constants.py (`done`, `finished`,
`completed`, `succeeded`).  The orchestrator's own poller
(`_wait_for_job`) hardcodes only `['done', 'finished', 'completed']` in
its state branch, so a record with state `succeeded` keeps polling there;
the four-element set is honored by the connection-level poller
(`GenAIGAEConnection.wait_for_job`), which reads `COMPLETED_STATES`.
-/

/-- Counterexample to C3: the orchestrator's poller treats state
`succeeded` — a member of the claimed completed-state set — as still
running, not as success. -/
theorem c3_counterexample :
    pollStep [("state", JVal.str "succeeded")] = PollOutcome.running ∧
    ¬(pollStep [("state", JVal.str "succeeded")] = PollOutcome.success) ∧
    "succeeded" ∈ COMPLETED_STATES := by
  decide

lemma stateMatches_str_iff (s : String) (l : List String) :
    stateMatches (JVal.str s) l = true ↔ s ∈ l := by
  unfold stateMatches jvalIsStr
  rw [List.any_eq_true]
  constructor
  · rintro ⟨t, htl, hbt⟩
    have : s = t := by simpa using hbt
    rw [this]
    exact htl
  · intro hm
    exact ⟨s, hm, by simp⟩

lemma pollStep_state_shape (job : Job) (s : String)
    (hp : job.get? "progress" = none ∨ job.get? "total" = none)
    (hst : job.get? "status" = none)
    (hs : job.get? "state" = some (JVal.str s)) :
    pollStep job =
      (if s ∈ (["done", "finished", "completed"] : List String) then PollOutcome.success
       else if s ∈ FAILED_STATES then
         PollOutcome.failure ((job.get? "error").getD (JVal.str "Unknown error"))
       else PollOutcome.running) := by
  have hneg : ¬(((job.get? "progress").isSome && (job.get? "total").isSome) = true) := by
    rcases hp with h | h <;> rw [h] <;> simp
  have hneg2 : ¬((job.get? "status").isSome = true) := by
    rw [hst]
    simp
  have hpos : (job.get? "state").isSome = true := by
    rw [hs]
    rfl
  unfold pollStep
  rw [if_neg hneg, if_neg hneg2, if_pos hpos]
  simp only [hs, Option.getD_some]
  by_cases h1 : s ∈ (["done", "finished", "completed"] : List String)
  · rw [if_pos ((stateMatches_str_iff s _).mpr h1), if_pos h1]
  · rw [if_neg (fun hc => h1 ((stateMatches_str_iff s _).mp hc)), if_neg h1]
    by_cases h2 : s ∈ FAILED_STATES
    · rw [if_pos ((stateMatches_str_iff s _).mpr h2), if_pos h2]
    · rw [if_neg (fun hc => h2 ((stateMatches_str_iff s _).mp hc)), if_neg h2]

lemma genaiPollStep_state_shape (job : Job) (s : String)
    (hp : job.get? "progress" = none ∨ job.get? "total" = none)
    (hst : job.get? "status" = none)
    (hs : job.get? "state" = some (JVal.str s)) :
    genaiPollStep job =
      (if s ∈ COMPLETED_STATES then some PollOutcome.success
       else if s ∈ FAILED_STATES then
         some (PollOutcome.failure ((job.get? "error").getD (JVal.str "Unknown error")))
       else some PollOutcome.running) := by
  have hneg : ¬(((job.get? "progress").isSome && (job.get? "total").isSome) = true) := by
    rcases hp with h | h <;> rw [h] <;> simp
  unfold genaiPollStep genaiStateOf
  rw [hst]
  simp only [hs, Option.getD_some, if_neg hneg]
  by_cases h1 : s ∈ COMPLETED_STATES
  · rw [if_pos ((stateMatches_str_iff s _).mpr h1), if_pos h1]
  · rw [if_neg (fun hc => h1 ((stateMatches_str_iff s _).mp hc)), if_neg h1]
    by_cases h2 : s ∈ FAILED_STATES
    · rw [if_pos ((stateMatches_str_iff s _).mpr h2), if_pos h2]
    · rw [if_neg (fun hc => h2 ((stateMatches_str_iff s _).mp hc)), if_neg h2]

/-- Amended C3: on a state-shape record (no progress/total pair, no
status field) the ORCHESTRATOR's poller succeeds exactly on
`{done, finished, completed}` — `succeeded` is treated as still running —
and raises exactly on the failed-state set `{failed, error}`; the
CONNECTION-level poller succeeds exactly on the full four-element
`COMPLETED_STATES` (including `succeeded`) and raises exactly on
`FAILED_STATES`. -/
theorem c3_state_shape_sets (job : Job) (s : String)
    (hp : job.get? "progress" = none ∨ job.get? "total" = none)
    (hst : job.get? "status" = none)
    (hs : job.get? "state" = some (JVal.str s)) :
    (pollStep job = PollOutcome.success ↔
      s ∈ (["done", "finished", "completed"] : List String)) ∧
    ((∃ m, pollStep job = PollOutcome.failure m) ↔ s ∈ FAILED_STATES) ∧
    (s ∉ (["done", "finished", "completed"] : List String) → s ∉ FAILED_STATES →
      pollStep job = PollOutcome.running) ∧
    (genaiPollStep job = some PollOutcome.success ↔ s ∈ COMPLETED_STATES) ∧
    ((∃ m, genaiPollStep job = some (PollOutcome.failure m)) ↔ s ∈ FAILED_STATES) := by
  rw [pollStep_state_shape job s hp hst hs, genaiPollStep_state_shape job s hp hst hs]
  have hdisj : s ∈ FAILED_STATES → s ∉ (["done", "finished", "completed"] : List String) := by
    intro hm
    have : s = "failed" ∨ s = "error" := by simpa [FAILED_STATES] using hm
    rcases this with rfl | rfl <;> decide
  have hdisj2 : s ∈ FAILED_STATES → s ∉ COMPLETED_STATES := by
    intro hm
    have : s = "failed" ∨ s = "error" := by simpa [FAILED_STATES] using hm
    rcases this with rfl | rfl <;> decide
  refine ⟨?_, ?_, ?_, ?_, ?_⟩
  · by_cases h1 : s ∈ (["done", "finished", "completed"] : List String)
    · rw [if_pos h1]
      exact ⟨fun _ => h1, fun _ => rfl⟩
    · rw [if_neg h1]
      by_cases h2 : s ∈ FAILED_STATES
      · rw [if_pos h2]
        exact ⟨fun hc => (nomatch hc), fun hm => absurd hm h1⟩
      · rw [if_neg h2]
        exact ⟨fun hc => (nomatch hc), fun hm => absurd hm h1⟩
  · by_cases h1 : s ∈ (["done", "finished", "completed"] : List String)
    · rw [if_pos h1]
      constructor
      · rintro ⟨m0, hm0⟩
        exact (nomatch hm0)
      · intro hm
        exact absurd h1 (hdisj hm)
    · rw [if_neg h1]
      by_cases h2 : s ∈ FAILED_STATES
      · rw [if_pos h2]
        exact ⟨fun _ => h2, fun _ => ⟨_, rfl⟩⟩
      · rw [if_neg h2]
        constructor
        · rintro ⟨m0, hm0⟩
          exact (nomatch hm0)
        · intro hm
          exact absurd hm h2
  · intro hn1 hn2
    rw [if_neg hn1, if_neg hn2]
  · by_cases h1 : s ∈ COMPLETED_STATES
    · rw [if_pos h1]
      exact ⟨fun _ => h1, fun _ => rfl⟩
    · rw [if_neg h1]
      by_cases h2 : s ∈ FAILED_STATES
      · rw [if_pos h2]
        exact ⟨fun hc => (nomatch Option.some.inj hc), fun hm => absurd hm h1⟩
      · rw [if_neg h2]
        exact ⟨fun hc => (nomatch Option.some.inj hc), fun hm => absurd hm h1⟩
  · by_cases h1 : s ∈ COMPLETED_STATES
    · rw [if_pos h1]
      constructor
      · rintro ⟨m0, hm0⟩
        exact (nomatch Option.some.inj hm0)
      · intro hm
        exact absurd h1 (hdisj2 hm)
    · rw [if_neg h1]
      by_cases h2 : s ∈ FAILED_STATES
      · rw [if_pos h2]
        exact ⟨fun _ => h2, fun _ => ⟨_, rfl⟩⟩
      · rw [if_neg h2]
        constructor
        · rintro ⟨m0, hm0⟩
          exact (nomatch Option.some.inj hm0)
        · intro hm
          exact absurd hm h2

/-- Witness for the amended C3: `done` succeeds on the orchestrator's
poller and `succeeded` succeeds on the connection-level poller. -/
theorem c3_witness :
    pollStep [("state", JVal.str "done")] = PollOutcome.success ∧
    genaiPollStep [("state", JVal.str "succeeded")] = some PollOutcome.success :=
  ⟨(c3_state_shape_sets [("state", JVal.str "done")] "done"
      (Or.inl rfl) rfl rfl).1.mpr (by decide),
   (c3_state_shape_sets [("state", JVal.str "succeeded")] "succeeded"
      (Or.inl rfl) rfl rfl).2.2.2.1.mpr (by decide)⟩

end GAO
